import Mathlib

/-!
Verification of the portfolio optimization engine (`backend/optimizer.py`).

Shallow embedding conventions:
* Machine floats are modelled by exact rationals (`ℚ`).  All arithmetic in the
  source is elementary (+, -, *, /), so the rational model is exact; the one
  genuinely irrational operation, `np.sqrt`, is kept symbolic via `NpSqrt`
  below, which also records NumPy's NaN-on-negative-input behaviour.
* A price table (`pandas.DataFrame`, columns = tickers, rows = dates) is a
  structure carrying the column names and a matrix of prices.  `m` counts the
  return observations, so the table has `m + 1` rows.
* The external SciPy routine `scipy.optimize.minimize` is not part of the
  repository; each call to it is modelled by an explicit outcome parameter
  (`SolverOutcome`): either the routine raised an exception (with a message)
  or it returned an `OptimizeResult` (weight vector, success flag, message).
  The embedded functions consume such outcomes exactly where the source calls
  `minimize`.
* Python `dict` construction is modelled by insert-with-overwrite on
  association lists (`dictInsert` / `buildDict`).
* Exceptions raised by the engine are modelled with `Except`; the distinct
  raise sites of `optimize_portfolio` become the constructors of
  `PortfolioError` (`ZeroDivisionError` from `1.0 / n_assets`, the
  `ValueError` for an unknown method, and the wrapping `ValueError` of the
  solver's exception, which the spec names `OptimizationFailedError`).
-/

/-- Symbolic model of a NumPy float produced by `np.sqrt`:
`NpSqrt.sqrtOf x` stands for the real number `√x` (only ever constructed with
`0 ≤ x`), and `NpSqrt.nan` is the NaN that `np.sqrt` returns on a negative
argument. -/
inductive NpSqrt where
  | nan : NpSqrt
  | sqrtOf (x : ℚ) : NpSqrt
deriving DecidableEq, Repr

/-- Model of `np.sqrt` on an exact rational: NaN on negative input, otherwise
the (symbolic) square root. -/
def npSqrt (x : ℚ) : NpSqrt :=
  if x < 0 then NpSqrt.nan else NpSqrt.sqrtOf x

/-- Float comparison `a <= b` on square-root values.  Every comparison with
NaN is `false` (IEEE semantics); `√a ≤ √b ↔ a ≤ b` for the nonnegative
radicands produced by `npSqrt`. -/
def NpSqrt.leb : NpSqrt → NpSqrt → Bool
  | NpSqrt.sqrtOf a, NpSqrt.sqrtOf b => decide (a ≤ b)
  | _, _ => false

/-- Propositional form of `NpSqrt.leb`. -/
def NpSqrt.le (a b : NpSqrt) : Prop := a.leb b = true

/-- Float comparison `a < b` on square-root values (NaN incomparable,
`√a < √b ↔ a < b` on nonnegative radicands); this is the comparison a
Python ascending sort performs on the keys. -/
def NpSqrt.ltb : NpSqrt → NpSqrt → Bool
  | NpSqrt.sqrtOf a, NpSqrt.sqrtOf b => decide (a < b)
  | _, _ => false

/-- Float comparison `0 < v` for a square-root value: `false` for NaN
(IEEE), and `√v > 0 ↔ v > 0` otherwise. -/
def NpSqrt.posb : NpSqrt → Bool
  | NpSqrt.nan => false
  | NpSqrt.sqrtOf v => decide (0 < v)

/-- Symbolic model of the Sharpe-ratio float: `zero` is the literal `0` of
the guard's `else` branch, and `ratio num v` stands for `num / √v`.  The
constructor `ratio` is only ever produced with `0 < v`. -/
inductive SharpeVal where
  | zero : SharpeVal
  | ratio (num : ℚ) (radicand : ℚ) : SharpeVal
deriving DecidableEq, Repr

/-- The guard `(ret - rf) / vol if vol > 0 else 0` shared by
`portfolio_performance` and `get_individual_asset_performance`. -/
def mkSharpe (num : ℚ) (vol : NpSqrt) : SharpeVal :=
  if vol.posb then
    match vol with
    | NpSqrt.nan => SharpeVal.zero
    | NpSqrt.sqrtOf v => SharpeVal.ratio num v
  else SharpeVal.zero

/-- A price table: column names (tickers) and the price matrix.  The table
has `m + 1` rows (dates) and `n` columns (assets); `m` is the number of
return observations left after `pct_change().dropna()`. -/
structure PriceTable (n m : ℕ) where
  tickers : Fin n → String
  prices : Fin (m + 1) → Fin n → ℚ

namespace Optimizer

variable {n m : ℕ}

/-- `price_data.pct_change().dropna()`: the per-period fractional change
`row[t+1]/row[t] - 1`; the NaN first row of `pct_change` is dropped, leaving
`m` rows indexed by `Fin m`. -/
def dailyReturns (pt : PriceTable n m) (t : Fin m) (j : Fin n) : ℚ :=
  pt.prices t.succ j / pt.prices t.castSucc j - 1

/-- `daily_returns.mean()` (pandas column mean: sum over the `m` observation
rows divided by the row count). -/
def meanDaily (pt : PriceTable n m) (j : Fin n) : ℚ :=
  (∑ t, dailyReturns pt t j) / (m : ℚ)

/-- `expected_returns = daily_returns.mean() * 252`. -/
def expectedReturns (pt : PriceTable n m) (j : Fin n) : ℚ :=
  meanDaily pt j * 252

/-- `daily_returns.cov()` (pandas sample covariance, `ddof = 1`): centered
cross products summed over the observations, divided by `m - 1`.  This is
the exact rational value; with a single observation (`m = 1`) the divisor is
zero and this convention maps the float's `0/0` (NaN) to `0` — `covEntryF`
below additionally tracks that NaN. -/
def covDaily (pt : PriceTable n m) (j k : Fin n) : ℚ :=
  (∑ t, (dailyReturns pt t j - meanDaily pt j) *
      (dailyReturns pt t k - meanDaily pt k)) / ((m : ℚ) - 1)

/-- `covariance_matrix = daily_returns.cov() * 252`. -/
def covariance (pt : PriceTable n m) (j k : Fin n) : ℚ :=
  covDaily pt j k * 252

/-- `calculate_returns_and_covariance`: returns the pair of the annualized
expected-return vector and the annualized covariance matrix. -/
def calculate_returns_and_covariance (pt : PriceTable n m) :
    (Fin n → ℚ) × (Fin n → Fin n → ℚ) :=
  (expectedReturns pt, covariance pt)

/-- `np.dot` of two vectors. -/
def dotProd (x y : Fin n → ℚ) : ℚ := ∑ i, x i * y i

/-- `np.dot(weights.T, np.dot(covariance_matrix, weights))`. -/
def portfolioVariance (w : Fin n → ℚ) (C : Fin n → Fin n → ℚ) : ℚ :=
  ∑ j, w j * (∑ k, C j k * w k)

/-- The triple returned by `portfolio_performance`. -/
structure Performance where
  ret : ℚ
  vol : NpSqrt
  sharpe : SharpeVal
deriving DecidableEq, Repr

/-- `portfolio_performance(weights, expected_returns, covariance_matrix)`:
return, volatility (`np.sqrt` of the quadratic form, NaN when the quadratic
form is negative) and the guarded Sharpe ratio. -/
def portfolio_performance (w μ : Fin n → ℚ) (C : Fin n → Fin n → ℚ)
    (rf : ℚ) : Performance :=
  let ret := dotProd w μ
  let vol := npSqrt (portfolioVariance w C)
  ⟨ret, vol, mkSharpe (ret - rf) vol⟩

/-- One row of `get_individual_asset_performance`. -/
structure AssetPerf where
  ticker : String
  risk : NpSqrt
  ret : ℚ
  sharpe : SharpeVal
deriving DecidableEq, Repr

/-- `get_individual_asset_performance`: per asset `i`, risk is
`np.sqrt(covariance_matrix[i, i])`, return is `expected_returns[i]`, and the
Sharpe ratio uses the same positive-risk guard as the portfolio. -/
def get_individual_asset_performance (pt : PriceTable n m) (rf : ℚ) :
    List AssetPerf :=
  List.ofFn fun i : Fin n =>
    let risk := npSqrt (covariance pt i i)
    ⟨pt.tickers i, risk, expectedReturns pt i,
      mkSharpe (expectedReturns pt i - rf) risk⟩

/-- Python `dict` assignment `d[k] = v`: overwrite the value at an existing
key in place, else append the new binding. -/
def dictInsert (k : String) (v : ℚ) : List (String × ℚ) → List (String × ℚ)
  | [] => [(k, v)]
  | (k', v') :: rest =>
      if k' = k then (k', v) :: rest else (k', v') :: dictInsert k v rest

/-- The dict comprehension
`{ticker: float(weight) for ticker, weight in zip(tickers, optimal_weights)}`. -/
def buildDict (l : List (String × ℚ)) : List (String × ℚ) :=
  l.foldl (fun d p => dictInsert p.1 p.2 d) []

/-- Model of the `OptimizeResult` returned by `scipy.optimize.minimize`:
the solution vector `x`, the convergence flag `success` and the status
`message`. -/
structure SolverResult (n : ℕ) where
  x : Fin n → ℚ
  success : Bool
  message : String

/-- Outcome of one call to the external `scipy.optimize.minimize` routine:
either it raised an exception carrying a message, or it returned a result
(possibly with `success = false` after hitting the 1000-iteration cap). -/
def SolverOutcome (n : ℕ) := Except String (SolverResult n)

/-- The distinct exception sites of `optimize_portfolio`:
`zeroDivision` is the `ZeroDivisionError` of `1.0 / n_assets` on an empty
column set; `unknownMethod` is the `ValueError` raised for an unsupported
method name (the spec's `UnknownMethodError`); `optimizationFailed` is the
`ValueError` that wraps an exception raised by the numerical routine,
carrying the original message (the spec's `OptimizationFailedError`). -/
inductive PortfolioError where
  | zeroDivision : PortfolioError
  | unknownMethod (method : String) : PortfolioError
  | optimizationFailed (cause : String) : PortfolioError
deriving DecidableEq, Repr

/-- The result dictionary returned by `optimize_portfolio`. -/
structure OptResult where
  weights : List (String × ℚ)
  exp_return : ℚ
  exp_risk : NpSqrt
  sharpe : SharpeVal
  success : Bool
  message : String
deriving DecidableEq, Repr

/-- `optimize_portfolio(price_data, method)`.  Control flow of the source:
`initial_weights = np.array([1.0 / n_assets] * n_assets)` raises
`ZeroDivisionError` when there are no columns; then the method dispatch
raises `ValueError` for a method other than `"min_variance"` /
`"max_sharpe"`; then `minimize` is called inside `try`, an exception from it
is re-raised as `ValueError("Portfolio optimization failed: ...")`, and any
returned result — converged or not — is post-processed into the result
dictionary. -/
def optimize_portfolio (pt : PriceTable n m) (rf : ℚ) (method : String)
    (solver : SolverOutcome n) : Except PortfolioError OptResult :=
  if n = 0 then Except.error PortfolioError.zeroDivision
  else if method = "min_variance" ∨ method = "max_sharpe" then
    match solver with
    | Except.error c => Except.error (PortfolioError.optimizationFailed c)
    | Except.ok r =>
        let μ := expectedReturns pt
        let C := covariance pt
        let perf := portfolio_performance r.x μ C rf
        Except.ok
          { weights := buildDict ((List.ofFn pt.tickers).zip (List.ofFn r.x))
            exp_return := perf.ret
            exp_risk := perf.vol
            sharpe := perf.sharpe
            success := r.success
            message := r.message }
  else Except.error (PortfolioError.unknownMethod method)

/-- One point of the efficient frontier: `{"risk": ..., "return": ...}`. -/
structure FrontierPoint where
  risk : NpSqrt
  ret : ℚ
deriving DecidableEq, Repr

/-- `np.linspace(a, b, k)`: `k` evenly spaced values from `a` to `b`
inclusive. -/
def linspace (a b : ℚ) : ℕ → List ℚ
  | 0 => []
  | 1 => [a]
  | (k + 2) => List.ofFn fun i : Fin (k + 2) => a + (b - a) * i / (k + 1)

/-- `np.min(expected_returns)` (the `n = 0` case is unreachable: the caller
raises first). -/
def minRet (pt : PriceTable n m) : ℚ :=
  match List.ofFn (expectedReturns pt) with
  | [] => 0
  | a :: l => l.foldl min a

/-- `np.max(expected_returns)`. -/
def maxRet (pt : PriceTable n m) : ℚ :=
  match List.ofFn (expectedReturns pt) with
  | [] => 0
  | a :: l => l.foldl max a

/-- `target_returns = np.linspace(min_return, max_return, n_points)`. -/
def targetReturns (pt : PriceTable n m) (k : ℕ) : List ℚ :=
  linspace (minRet pt) (maxRet pt) k

/-- The body of the sweep loop for one target return: an exception from
`minimize` is swallowed (`continue`), a non-converged result is skipped, and
a converged result contributes the `(risk, return)` of its portfolio. -/
def frontierAttempt (pt : PriceTable n m) (rf : ℚ) (o : SolverOutcome n) :
    Option FrontierPoint :=
  match o with
  | Except.error _ => none
  | Except.ok r =>
      if r.success then
        let perf := portfolio_performance r.x (expectedReturns pt)
          (covariance pt) rf
        some ⟨perf.vol, perf.ret⟩
      else none

/-- `frontier_points.sort(key=lambda x: x["risk"])`, insertion step: place
`p` after every element whose risk compares strictly `<` to `p`'s — the
stable ascending insertion matching Python's stable sort on NaN-free keys. -/
def insertPoint (p : FrontierPoint) : List FrontierPoint → List FrontierPoint
  | [] => [p]
  | q :: l => if NpSqrt.ltb q.risk p.risk then q :: insertPoint p l
      else p :: q :: l

/-- Ascending stable sort of the frontier points by their risk key. -/
def sortByRisk : List FrontierPoint → List FrontierPoint
  | [] => []
  | p :: l => insertPoint p (sortByRisk l)

/-- `generate_efficient_frontier(price_data, n_points)`: with no columns,
`np.min` of the empty return vector raises (outside any `try`); otherwise
the loop over the target grid collects one optional point per target —
the outcome of the `i`-th `minimize` call is `solver i` — and the collected
points are sorted ascending by risk. -/
def generate_efficient_frontier (pt : PriceTable n m) (rf : ℚ)
    (n_points : ℕ) (solver : ℕ → SolverOutcome n) :
    Except String (List FrontierPoint) :=
  if n = 0 then
    Except.error "zero-size array to reduction operation minimum which has no identity"
  else
    Except.ok (sortByRisk
      ((List.range (targetReturns pt n_points).length).filterMap
        fun i => frontierAttempt pt rf (solver i)))

/-- Spec-side formulation (claim C2): the per-period fractional changes of a
row list, `row[t]/row[t-1] - 1`, the first row discarded (pairing every row
with its successor). -/
def specPerPeriodChanges (rows : List (Fin n → ℚ)) (j : Fin n) : List ℚ :=
  (rows.zip rows.tail).map fun p => p.2 j / p.1 j - 1

/-- Arithmetic mean of a list of rationals. -/
def listMean (l : List ℚ) : ℚ := l.sum / (l.length : ℚ)

/-- Spec-side formulation: sample covariance of two equally long series
(centered cross products divided by `count - 1`). -/
def specSampleCov (xs ys : List ℚ) : ℚ :=
  (List.zipWith (fun a b => (a - listMean xs) * (b - listMean ys)) xs ys).sum /
    ((xs.length : ℚ) - 1)

/-- Spec-side formulation: expected return = arithmetic mean of the
per-period changes, multiplied by 252. -/
def specExpectedReturn (rows : List (Fin n → ℚ)) (j : Fin n) : ℚ :=
  listMean (specPerPeriodChanges rows j) * 252

/-- Spec-side formulation: covariance entry = sample covariance of the
per-period changes of the two assets, multiplied by 252. -/
def specCovariance (rows : List (Fin n → ℚ)) (j k : Fin n) : ℚ :=
  specSampleCov (specPerPeriodChanges rows j) (specPerPeriodChanges rows k) * 252

/-- The rows of a price table as a list (top row first). -/
def tableRows (pt : PriceTable n m) : List (Fin n → ℚ) :=
  List.ofFn fun t => pt.prices t

/-- NaN-aware model of one entry of the annualized covariance matrix
(`daily_returns.cov() * 252`): with at most one observation pandas'
`ddof = 1` divisor `m - 1` is zero (and with zero observations the means are
already NaN), so the float entry is NaN, modelled as `none`; with two or
more observations it is the exact sample value of `covariance`. -/
def covEntryF (pt : PriceTable n m) (j k : Fin n) : Option ℚ :=
  if m ≤ 1 then none else some (covariance pt j k)

/-- IEEE float equality lifted to NaN-aware values: NaN compares equal to
nothing, itself included. -/
def optionEqb : Option ℚ → Option ℚ → Bool
  | some a, some b => decide (a = b)
  | _, _ => false

/-- IEEE float test `0 <= x` on a NaN-aware value: false for NaN. -/
def optionNonnegb : Option ℚ → Bool
  | some a => decide (0 ≤ a)
  | none => false

/-- Spec-side formulation (claim C5): risk computed as
`sqrt(max(variance, 0))`, clamping a negative variance to 0. -/
def clampedRisk (w : Fin n → ℚ) (C : Fin n → Fin n → ℚ) : NpSqrt :=
  npSqrt (max (portfolioVariance w C) 0)

/-- A Sharpe value is safe when it is either the literal 0 of the guard or a
ratio whose divisor `√v` is strictly positive — i.e. no division by zero and
no infinity. -/
def sharpeSafe : SharpeVal → Prop
  | SharpeVal.zero => True
  | SharpeVal.ratio _ v => 0 < v

/-- A solve attempt that did not converge: the routine either raised or
returned with `success = false`. -/
def failsOrNoConverge (o : SolverOutcome n) : Prop :=
  (∃ c, o = Except.error c) ∨ (∃ r, o = Except.ok r ∧ r.success = false)

/-- The claim-C3 ordering contract: consecutive risks compare `<=` under
float comparison. -/
def riskSorted (l : List FrontierPoint) : Prop :=
  ∀ i : ℕ, (h : i + 1 < l.length) →
    NpSqrt.le (l.get ⟨i, by omega⟩).risk (l.get ⟨i + 1, h⟩).risk

end Optimizer

open Optimizer

/-- A concrete 2-asset, 2-row price table used by the witnesses. -/
def ptA : PriceTable 2 1 :=
  ⟨!["A", "B"], ![![1, 2], ![2, 3]]⟩

/-- A concrete solver-outcome sequence for the frontier witnesses: every
target converges, first to asset 0 alone, then to asset 1 alone. -/
def solverC3 : ℕ → SolverOutcome 2 := fun i =>
  if i = 0 then Except.ok ⟨![1, 0], true, "done"⟩
  else Except.ok ⟨![0, 1], true, "done"⟩

/-- The failing input of claim C6: a price table with a single asset column
(100 rows of constant positive price), as in `test_single_asset_data`. -/
def ptSingle : PriceTable 1 99 :=
  ⟨!["AAPL"], fun _ _ => 1⟩

/-- A concrete 2-asset, 3-row price table (two return observations). -/
def ptB : PriceTable 2 2 :=
  ⟨!["A", "B"], ![![1, 2], ![2, 3], ![4, 5]]⟩

namespace Optimizer

theorem length_linspace (a b : ℚ) (k : ℕ) : (linspace a b k).length = k := by
  match k with
  | 0 => rfl
  | 1 => rfl
  | (k + 2) => simp [linspace]

theorem length_insertPoint (p : FrontierPoint) (l : List FrontierPoint) :
    (insertPoint p l).length = l.length + 1 := by
  induction l with
  | nil => rfl
  | cons q l ih =>
      by_cases h : NpSqrt.ltb q.risk p.risk <;>
        simp [insertPoint, h, ih]

theorem length_sortByRisk (l : List FrontierPoint) :
    (sortByRisk l).length = l.length := by
  induction l with
  | nil => rfl
  | cons p l ih => simp [sortByRisk, length_insertPoint, ih]

/-- C7: for every price table, requesting an objective mode that is neither
`min_variance` nor `max_sharpe` fails with the unknown-method error, and the
result does not depend on the numerical solver (which is therefore never
consulted). -/
theorem c7_unknown_method_error {n m : ℕ} (pt : PriceTable n m) (rf : ℚ)
    (method : String) (hn : 1 ≤ n)
    (hbad : method ≠ "min_variance" ∧ method ≠ "max_sharpe") :
    ∀ solver : SolverOutcome n,
      optimize_portfolio pt rf method solver =
        Except.error (PortfolioError.unknownMethod method) := by
  intro solver
  have hn0 : ¬ n = 0 := by omega
  have hb : ¬ (method = "min_variance" ∨ method = "max_sharpe") := by
    rintro (h | h)
    · exact hbad.1 h
    · exact hbad.2 h
  simp [optimize_portfolio, hn0, hb]

/-- Witness for C7: mode `"bogus"` yields the unknown-method error whether
the solver would have raised or would have returned a result. -/
theorem c7_unknown_method_error_witness :
    optimize_portfolio ptA 0 "bogus" (Except.error "boom") =
      Except.error (PortfolioError.unknownMethod "bogus") ∧
    optimize_portfolio ptA 0 "bogus"
        (Except.ok ⟨fun _ => 1 / 2, true, "done"⟩) =
      Except.error (PortfolioError.unknownMethod "bogus") :=
  ⟨c7_unknown_method_error ptA 0 "bogus" (by decide) (by decide) _,
   c7_unknown_method_error ptA 0 "bogus" (by decide) (by decide) _⟩

theorem optimize_portfolio_ok_eq {n m : ℕ} (pt : PriceTable n m) (rf : ℚ)
    (method : String) (r : SolverResult n) (hn0 : ¬ n = 0)
    (hm : method = "min_variance" ∨ method = "max_sharpe") :
    optimize_portfolio pt rf method (Except.ok r) = Except.ok
      { weights := buildDict ((List.ofFn pt.tickers).zip (List.ofFn r.x))
        exp_return := (portfolio_performance r.x (expectedReturns pt)
          (covariance pt) rf).ret
        exp_risk := (portfolio_performance r.x (expectedReturns pt)
          (covariance pt) rf).vol
        sharpe := (portfolio_performance r.x (expectedReturns pt)
          (covariance pt) rf).sharpe
        success := r.success
        message := r.message } := by
  rcases hm with hm | hm <;> subst hm <;> simp [optimize_portfolio, hn0]

/-- C4: for a supported objective mode, the solve raises iff the underlying
numerical routine raised, in which case the error is the optimization-failed
wrapper carrying the original cause; a returned result — converged or not —
is passed through with its success flag, its status message and the
best-effort weight vector. -/
theorem c4_raise_iff_solver_raises {n m : ℕ} (pt : PriceTable n m) (rf : ℚ)
    (method : String) (solver : SolverOutcome n) (hn : 1 ≤ n)
    (hm : method = "min_variance" ∨ method = "max_sharpe") :
    ((∃ e, optimize_portfolio pt rf method solver = Except.error e) ↔
      ∃ c, solver = Except.error c) ∧
    (∀ c, solver = Except.error c →
      optimize_portfolio pt rf method solver =
        Except.error (PortfolioError.optimizationFailed c)) ∧
    (∀ r, solver = Except.ok r →
      ∃ res, optimize_portfolio pt rf method solver = Except.ok res ∧
        res.success = r.success ∧ res.message = r.message ∧
        res.weights = buildDict ((List.ofFn pt.tickers).zip (List.ofFn r.x))) := by
  have hn0 : ¬ n = 0 := by omega
  cases solver with
  | error c =>
      have herr : optimize_portfolio pt rf method (Except.error c) =
          Except.error (PortfolioError.optimizationFailed c) := by
        rcases hm with hm | hm <;> subst hm <;> simp [optimize_portfolio, hn0]
      refine ⟨⟨fun _ => ⟨c, rfl⟩, fun _ => ⟨_, herr⟩⟩, fun c' hc' => ?_,
        fun r hr => by simp at hr⟩
      cases hc'
      exact herr
  | ok r =>
      have hok := optimize_portfolio_ok_eq pt rf method r hn0 hm
      refine ⟨⟨fun ⟨e, he⟩ => ?_, fun ⟨c, hc⟩ => by simp at hc⟩,
        fun c' hc' => by simp at hc', fun r' hr' => ?_⟩
      · rw [hok] at he
        exact absurd he (by simp)
      · cases hr'
        exact ⟨_, hok, rfl, rfl, rfl⟩

/-- Witness for C4: a raise of the numerical routine (e.g. a singular
matrix) surfaces as the optimization-failed error carrying the cause. -/
theorem c4_raise_iff_solver_raises_witness :
    optimize_portfolio ptA 0 "min_variance" (Except.error "singular matrix") =
      Except.error (PortfolioError.optimizationFailed "singular matrix") :=
  (c4_raise_iff_solver_raises ptA 0 "min_variance"
    (Except.error "singular matrix") (by decide) (Or.inl rfl)).2.1
    "singular matrix" rfl

/-- C8: a failed or non-converged target-return solve is skipped, and if
every target fails the sweep returns the empty list rather than an error. -/
theorem c8_all_failures_empty_frontier {n m : ℕ} (pt : PriceTable n m)
    (rf : ℚ) (n_points : ℕ) (solver : ℕ → SolverOutcome n) (hn : 1 ≤ n)
    (hall : ∀ i, i < n_points → failsOrNoConverge (solver i)) :
    generate_efficient_frontier pt rf n_points solver = Except.ok [] := by
  have hn0 : ¬ n = 0 := by omega
  have hnone : ∀ i ∈ List.range (targetReturns pt n_points).length,
      frontierAttempt pt rf (solver i) = none := by
    intro i hi
    have hi' : i < n_points := by
      simpa [targetReturns, length_linspace] using List.mem_range.mp hi
    rcases hall i hi' with ⟨c, hc⟩ | ⟨r, hr, hs⟩
    · simp [frontierAttempt, hc]
    · simp [frontierAttempt, hr, hs]
  have h1 : (List.range (targetReturns pt n_points).length).filterMap
      (fun i => frontierAttempt pt rf (solver i)) = [] :=
    List.filterMap_eq_nil_iff.mpr hnone
  simp [generate_efficient_frontier, hn0, h1, sortByRisk]

/-- Witness for C8: three solver raises in a row produce the empty frontier,
not an exception. -/
theorem c8_all_failures_empty_frontier_witness :
    generate_efficient_frontier ptA 0 3 (fun _ => Except.error "LinAlgError") =
      Except.ok [] :=
  c8_all_failures_empty_frontier ptA 0 3 _ (by decide)
    (fun _ _ => Or.inl ⟨"LinAlgError", rfl⟩)

/-- C10: the target-return grid has exactly `n_points` entries, and the
returned frontier has at most `n_points` points (each grid entry contributes
at most one point). -/
theorem c10_frontier_point_budget {n m : ℕ} (pt : PriceTable n m) (rf : ℚ)
    (n_points : ℕ) (solver : ℕ → SolverOutcome n) (hn : 1 ≤ n)
    (hp : 1 ≤ n_points) :
    (targetReturns pt n_points).length = n_points ∧
    ∃ l, generate_efficient_frontier pt rf n_points solver = Except.ok l ∧
      l.length ≤ n_points := by
  have hn0 : ¬ n = 0 := by omega
  refine ⟨length_linspace _ _ _, ?_⟩
  have hgen : generate_efficient_frontier pt rf n_points solver = Except.ok
      (sortByRisk ((List.range (targetReturns pt n_points).length).filterMap
        fun i => frontierAttempt pt rf (solver i))) := by
    simp [generate_efficient_frontier, hn0]
  refine ⟨_, hgen, ?_⟩
  calc (sortByRisk ((List.range (targetReturns pt n_points).length).filterMap
          fun i => frontierAttempt pt rf (solver i))).length
      = ((List.range (targetReturns pt n_points).length).filterMap
          fun i => frontierAttempt pt rf (solver i)).length :=
        length_sortByRisk _
    _ ≤ (List.range (targetReturns pt n_points).length).length :=
        List.length_filterMap_le _ _
    _ = n_points := by simp [targetReturns, length_linspace]

/-- Witness for C10: with 5 requested points and a solver that always
raises, the grid has 5 entries and the frontier at most 5 points. -/
theorem c10_frontier_point_budget_witness :
    (targetReturns ptA 5).length = 5 ∧
    ∃ l, generate_efficient_frontier ptA 0 5 (fun _ => Except.error "x") =
        Except.ok l ∧ l.length ≤ 5 :=
  c10_frontier_point_budget ptA 0 5 _ (by decide) (by decide)

theorem zipWith_ofFn {α β γ : Type*} {mm : ℕ} (h : α → β → γ)
    (f : Fin mm → α) (g : Fin mm → β) :
    List.zipWith h (List.ofFn f) (List.ofFn g) = List.ofFn fun i => h (f i) (g i) := by
  apply List.ext_getElem (by simp)
  intro i h1 h2
  simp

theorem zip_rows_tail {α : Type*} {mm : ℕ} (f : Fin (mm + 1) → α) :
    (List.ofFn f).zip (List.ofFn f).tail =
      List.ofFn fun t : Fin mm => (f t.castSucc, f t.succ) := by
  apply List.ext_getElem (by simp)
  intro i h1 h2
  have hi : i + 1 < mm + 1 := by
    simp at h2
    omega
  simp only [List.getElem_zip, List.getElem_tail, List.getElem_ofFn,
    Prod.mk.injEq]
  constructor <;> (apply congrArg f; apply Fin.ext; simp)

theorem specChanges_eq {n m : ℕ} (pt : PriceTable n m) (j : Fin n) :
    specPerPeriodChanges (tableRows pt) j =
      List.ofFn fun t => dailyReturns pt t j := by
  unfold specPerPeriodChanges tableRows
  rw [zip_rows_tail, List.map_ofFn]
  rfl

theorem listMean_changes {n m : ℕ} (pt : PriceTable n m) (j : Fin n) :
    listMean (List.ofFn fun t => dailyReturns pt t j) = meanDaily pt j := by
  simp [listMean, meanDaily, List.sum_ofFn]

/-- C2: on any price table with at least 2 rows, the estimator's outputs are
exactly the spec's formulas — per-period fractional changes with the first
row discarded, their arithmetic mean times 252, and their sample covariance
times 252. -/
theorem c2_estimator_formulas {n m : ℕ} (pt : PriceTable n m) (hm : 1 ≤ m)
    (j k : Fin n) :
    expectedReturns pt j = specExpectedReturn (tableRows pt) j ∧
    covariance pt j k = specCovariance (tableRows pt) j k := by
  constructor
  · unfold expectedReturns specExpectedReturn
    rw [specChanges_eq, listMean_changes]
  · unfold covariance specCovariance covDaily specSampleCov
    rw [specChanges_eq, specChanges_eq, listMean_changes, listMean_changes,
      zipWith_ofFn]
    simp [List.sum_ofFn]

/-- Witness for C2 at the concrete table `ptA`. -/
theorem c2_estimator_formulas_witness :
    expectedReturns ptA 0 = specExpectedReturn (tableRows ptA) 0 ∧
    covariance ptA 0 1 = specCovariance (tableRows ptA) 0 1 :=
  c2_estimator_formulas ptA (by decide) 0 1

/-- Counterexample for C9: a price table with 2 assets and exactly 2 rows —
inside the claim's stated domain — has a single return observation, so the
pandas `ddof = 1` sample covariance divides by zero and every entry is NaN:
the matrix is not equal to its own transpose under float comparison, and its
diagonal entries are not nonnegative. -/
theorem c9_two_row_nan_counterexample :
    covEntryF ptA 0 0 = none ∧
    optionEqb (covEntryF ptA 0 0) (covEntryF ptA 0 0) = false ∧
    optionNonnegb (covEntryF ptA 0 0) = false := by
  decide

/-- C9 amended: for a price table with at least 2 assets and at least 3 rows
(at least two return observations) every covariance entry is a genuine
(non-NaN) value, the matrix equals its own transpose entrywise, and every
diagonal entry is nonnegative; with exactly 2 rows the single observation
makes every entry NaN. -/
theorem c9_covariance_symmetric_diag_nonneg {n m : ℕ} (pt : PriceTable n m)
    (hn : 2 ≤ n) (hm : 2 ≤ m) :
    (∀ j k, covEntryF pt j k = covEntryF pt k j) ∧
    (∀ j, ∃ q, covEntryF pt j j = some q ∧ 0 ≤ q) := by
  have hm1 : ¬ m ≤ 1 := by omega
  constructor
  · intro j k
    unfold covEntryF
    rw [if_neg hm1, if_neg hm1]
    congr 1
    unfold covariance covDaily
    congr 2
    exact Finset.sum_congr rfl fun t _ => mul_comm _ _
  · intro j
    refine ⟨covariance pt j j, by unfold covEntryF; rw [if_neg hm1], ?_⟩
    unfold covariance covDaily
    have h1 : 0 ≤ ∑ t, (dailyReturns pt t j - meanDaily pt j) *
        (dailyReturns pt t j - meanDaily pt j) :=
      Finset.sum_nonneg fun t _ => mul_self_nonneg _
    have h2 : (0 : ℚ) ≤ (m : ℚ) - 1 := by
      have : (2 : ℚ) ≤ (m : ℚ) := by exact_mod_cast hm
      linarith
    exact mul_nonneg (div_nonneg h1 h2) (by norm_num)

/-- Witness for C9 at the concrete 3-row table `ptB`. -/
theorem c9_covariance_symmetric_diag_nonneg_witness :
    (∀ j k, covEntryF ptB j k = covEntryF ptB k j) ∧
    (∀ j, ∃ q, covEntryF ptB j j = some q ∧ 0 ≤ q) :=
  c9_covariance_symmetric_diag_nonneg ptB (by decide) (by decide)

theorem dictInsert_not_mem (k : String) (v : ℚ) (d : List (String × ℚ))
    (hk : k ∉ d.map Prod.fst) : dictInsert k v d = d ++ [(k, v)] := by
  induction d with
  | nil => rfl
  | cons p rest ih =>
      obtain ⟨k', v'⟩ := p
      simp only [List.map_cons, List.mem_cons] at hk
      push_neg at hk
      rw [dictInsert, if_neg (fun h => hk.1 h.symm), ih hk.2]
      simp

theorem buildDict_go_eq (l : List (String × ℚ)) :
    ∀ d : List (String × ℚ), ((d ++ l).map Prod.fst).Nodup →
      List.foldl (fun d p => dictInsert p.1 p.2 d) d l = d ++ l := by
  induction l with
  | nil => intro d _; simp
  | cons p rest ih =>
      intro d h
      have hk : p.1 ∉ d.map Prod.fst := by
        intro hmem
        rw [List.map_append] at h
        exact (List.nodup_append.mp h).2.2 hmem (by simp)
      rw [List.foldl_cons, dictInsert_not_mem p.1 p.2 d hk]
      have h' : (((d ++ [p]) ++ rest).map Prod.fst).Nodup := by
        simpa [List.append_assoc] using h
      calc List.foldl (fun d p => dictInsert p.1 p.2 d) (d ++ [(p.1, p.2)]) rest
          = (d ++ [p]) ++ rest := ih (d ++ [p]) h'
        _ = d ++ p :: rest := by simp

theorem buildDict_eq_self (l : List (String × ℚ))
    (h : (l.map Prod.fst).Nodup) : buildDict l = l := by
  simpa [buildDict] using buildDict_go_eq l [] (by simpa using h)

/-- C1: if the external routine returns a converged result whose raw vector
satisfies the solver's success contract (sum within 1e-6 of 1, every entry
within the widened box), and the column names are distinct, then the result
dictionary reports success, its values sum to 1 within 1e-6, every value
lies in [-1e-6, 1 + 1e-6], and its key set is exactly the column set. -/
theorem c1_weights_sum_box_keys {n m : ℕ} (pt : PriceTable n m) (rf : ℚ)
    (method : String) (r : SolverResult n) (hn : 1 ≤ n)
    (hm : method = "min_variance" ∨ method = "max_sharpe")
    (hnd : (List.ofFn pt.tickers).Nodup)
    (hs : r.success = true)
    (hsum : |(∑ i, r.x i) - 1| ≤ 1 / 1000000)
    (hbox : ∀ i, -(1 / 1000000) ≤ r.x i ∧ r.x i ≤ 1 + 1 / 1000000) :
    ∃ res, optimize_portfolio pt rf method (Except.ok r) = Except.ok res ∧
      res.success = true ∧
      1 - 1 / 1000000 ≤ (res.weights.map Prod.snd).sum ∧
      (res.weights.map Prod.snd).sum ≤ 1 + 1 / 1000000 ∧
      (∀ p ∈ res.weights, -(1 / 1000000) ≤ p.2 ∧ p.2 ≤ 1 + 1 / 1000000) ∧
      (∀ s, s ∈ res.weights.map Prod.fst ↔ s ∈ List.ofFn pt.tickers) := by
  have hn0 : ¬ n = 0 := by omega
  have hlen1 : (List.ofFn pt.tickers).length ≤ (List.ofFn r.x).length := by simp
  have hlen2 : (List.ofFn r.x).length ≤ (List.ofFn pt.tickers).length := by simp
  have hkeys : ((List.ofFn pt.tickers).zip (List.ofFn r.x)).map Prod.fst =
      List.ofFn pt.tickers := List.map_fst_zip _ _ hlen1
  have hvals : ((List.ofFn pt.tickers).zip (List.ofFn r.x)).map Prod.snd =
      List.ofFn r.x := List.map_snd_zip _ _ hlen2
  have hz : buildDict ((List.ofFn pt.tickers).zip (List.ofFn r.x)) =
      (List.ofFn pt.tickers).zip (List.ofFn r.x) :=
    buildDict_eq_self _ (by rw [hkeys]; exact hnd)
  obtain ⟨hlo, hhi⟩ := abs_le.mp hsum
  refine ⟨_, optimize_portfolio_ok_eq pt rf method r hn0 hm, hs, ?_, ?_, ?_, ?_⟩
  · dsimp only
    rw [hz, hvals, List.sum_ofFn]
    linarith
  · dsimp only
    rw [hz, hvals, List.sum_ofFn]
    linarith
  · dsimp only
    rw [hz]
    intro p hp
    have hp2 : p.2 ∈ List.ofFn r.x := (List.of_mem_zip hp).2
    obtain ⟨i, hi⟩ := (List.mem_ofFn _ _).mp hp2
    rw [← hi]
    exact hbox i
  · dsimp only
    rw [hz, hkeys]
    intro s
    exact Iff.rfl

/-- Witness for C1: a converged equal-split result on the 2-asset table. -/
theorem c1_weights_sum_box_keys_witness :
    ∃ res, optimize_portfolio ptA 0 "min_variance"
        (Except.ok ⟨![1 / 2, 1 / 2], true, "Optimization terminated successfully"⟩) =
          Except.ok res ∧
      res.success = true ∧
      1 - 1 / 1000000 ≤ (res.weights.map Prod.snd).sum ∧
      (res.weights.map Prod.snd).sum ≤ 1 + 1 / 1000000 ∧
      (∀ p ∈ res.weights, -(1 / 1000000) ≤ p.2 ∧ p.2 ≤ 1 + 1 / 1000000) ∧
      (∀ s, s ∈ res.weights.map Prod.fst ↔ s ∈ List.ofFn ptA.tickers) :=
  c1_weights_sum_box_keys ptA 0 "min_variance"
    ⟨![1 / 2, 1 / 2], true, "Optimization terminated successfully"⟩
    (by decide) (Or.inl rfl) (by decide) rfl
    (by norm_num [Fin.sum_univ_two])
    (fun i => by fin_cases i <;> norm_num)

theorem sharpeSafe_mkSharpe (num : ℚ) (vol : NpSqrt) :
    sharpeSafe (mkSharpe num vol) := by
  cases vol with
  | nan => simp [mkSharpe, NpSqrt.posb, sharpeSafe]
  | sqrtOf v =>
      by_cases h : 0 < v
      · simp [mkSharpe, NpSqrt.posb, h, sharpeSafe]
      · simp [mkSharpe, NpSqrt.posb, h, sharpeSafe]

/-- Counterexample for C5: at weights `[1]` and covariance `[[-1]]` the code
computes `np.sqrt(-1)`, i.e. NaN — not the clamped `sqrt(max(variance, 0))`
the claim states. -/
theorem c5_counterexample_no_clamp :
    (portfolio_performance (fun _ : Fin 1 => 1) (fun _ => 0)
        (fun _ _ => -1) 0).vol = NpSqrt.nan ∧
    clampedRisk (fun _ : Fin 1 => 1) (fun _ _ => -1) = NpSqrt.sqrtOf 0 ∧
    NpSqrt.nan ≠ NpSqrt.sqrtOf 0 := by
  have hvar : portfolioVariance (fun _ : Fin 1 => (1 : ℚ)) (fun _ _ => -1) = -1 := by
    simp [portfolioVariance]
  refine ⟨?_, ?_, by simp⟩
  · simp only [portfolio_performance, hvar, npSqrt]
    norm_num
  · simp only [clampedRisk, hvar, npSqrt]
    norm_num

/-- C5 amended: volatility is the unclamped `np.sqrt` of the quadratic form
(NaN when it is negative), agreeing with the spec's clamped formula exactly
when the variance is nonnegative; on every input — NaN risk included, since
`NaN > 0` is false — the Sharpe guard yields either literal 0 or a ratio
with strictly positive risk, never a division by zero or an infinity, and
when the risk is NaN the Sharpe ratio is exactly 0; the per-asset scores
carry the same guard. -/
theorem c5_sharpe_guard_total {n m : ℕ} (pt : PriceTable n m)
    (w μ : Fin n → ℚ) (C : Fin n → Fin n → ℚ) (rf : ℚ) :
    (0 ≤ portfolioVariance w C →
      (portfolio_performance w μ C rf).vol = clampedRisk w C) ∧
    ((portfolio_performance w μ C rf).vol = NpSqrt.nan →
      (portfolio_performance w μ C rf).sharpe = SharpeVal.zero) ∧
    sharpeSafe (portfolio_performance w μ C rf).sharpe ∧
    ∀ a ∈ get_individual_asset_performance pt rf, sharpeSafe a.sharpe := by
  refine ⟨?_, ?_, sharpeSafe_mkSharpe _ _, ?_⟩
  · intro hv
    unfold portfolio_performance clampedRisk
    rw [max_eq_left hv]
  · intro hnan
    have hnan' : npSqrt (portfolioVariance w C) = NpSqrt.nan := hnan
    show mkSharpe (dotProd w μ - rf) (npSqrt (portfolioVariance w C)) =
      SharpeVal.zero
    rw [hnan']
    rfl
  · intro a ha
    obtain ⟨i, hi⟩ := (List.mem_ofFn _ _).mp ha
    rw [← hi]
    exact sharpeSafe_mkSharpe _ _

/-- Witness for C5: at a negative-variance input the risk is NaN and the
Sharpe ratio is literal 0; at a nonnegative-variance input the unclamped
and clamped risks agree. -/
theorem c5_sharpe_guard_total_witness :
    (portfolio_performance (fun _ : Fin 1 => 1) (fun _ => 0)
        (fun _ _ => -1) 0).sharpe = SharpeVal.zero ∧
    (portfolio_performance (fun _ : Fin 2 => 1 / 2) (expectedReturns ptA)
        (fun _ _ => 0) 0).vol =
      clampedRisk (fun _ : Fin 2 => 1 / 2) (fun _ _ => 0) :=
  ⟨(c5_sharpe_guard_total ptSingle (fun _ => 1) (fun _ => 0)
      (fun _ _ => -1) 0).2.1
      (by norm_num [portfolio_performance, portfolioVariance, npSqrt]),
   (c5_sharpe_guard_total ptA (fun _ => 1 / 2) (expectedReturns ptA)
      (fun _ _ => 0) 0).1 (by norm_num [portfolioVariance])⟩

/-- C6, the code evaluated at the failing input: a price table with a single
asset column (100 rows of constant price 1, as in `test_single_asset_data`)
does not fail with any insufficient-data error — the statistics are computed,
the numerical solver is reached, and its result is post-processed and
returned. -/
theorem c6_single_asset_reaches_solver :
    optimize_portfolio ptSingle 0 "min_variance"
        (Except.ok ⟨fun _ => 1, true, "Optimization terminated successfully"⟩) =
      Except.ok
        { weights := [("AAPL", 1)]
          exp_return := 0
          exp_risk := NpSqrt.sqrtOf 0
          sharpe := SharpeVal.zero
          success := true
          message := "Optimization terminated successfully" } := by
  have hmu : expectedReturns ptSingle = fun _ => 0 := by
    funext j
    simp [expectedReturns, meanDaily, dailyReturns, ptSingle]
  have hcov : covariance ptSingle = fun _ _ => 0 := by
    funext j k
    simp [covariance, covDaily, dailyReturns, meanDaily, ptSingle]
  have hperf : portfolio_performance (fun _ : Fin 1 => (1 : ℚ))
      (expectedReturns ptSingle) (covariance ptSingle) 0 =
      ⟨0, NpSqrt.sqrtOf 0, SharpeVal.zero⟩ := by
    rw [hmu, hcov]
    simp [portfolio_performance, dotProd, portfolioVariance, npSqrt,
      mkSharpe, NpSqrt.posb]
  have hw : buildDict ((List.ofFn ptSingle.tickers).zip
      (List.ofFn fun _ : Fin 1 => (1 : ℚ))) = [("AAPL", 1)] := by
    simp [ptSingle, List.ofFn_succ, buildDict, dictInsert]
  rw [optimize_portfolio_ok_eq ptSingle 0 "min_variance" _ (by decide)
    (Or.inl rfl)]
  rw [hperf, hw]

theorem quadForm_factor {n mm : ℕ} (w : Fin n → ℚ) (c : Fin mm → Fin n → ℚ) :
    ∑ j, w j * (∑ k, (∑ t, c t j * c t k) * w k) =
      ∑ t, (∑ j, w j * c t j) ^ 2 := by
  calc ∑ j, w j * (∑ k, (∑ t, c t j * c t k) * w k)
      = ∑ j, ∑ k, ∑ t, w j * (c t j * c t k * w k) := by
        refine Finset.sum_congr rfl fun j _ => ?_
        rw [Finset.mul_sum]
        refine Finset.sum_congr rfl fun k _ => ?_
        rw [Finset.sum_mul, Finset.mul_sum]
    _ = ∑ j, ∑ t, ∑ k, w j * (c t j * c t k * w k) :=
        Finset.sum_congr rfl fun j _ => Finset.sum_comm
    _ = ∑ t, ∑ j, ∑ k, w j * (c t j * c t k * w k) := Finset.sum_comm
    _ = ∑ t, ∑ j, ∑ k, (w j * c t j) * (w k * c t k) := by
        refine Finset.sum_congr rfl fun t _ => Finset.sum_congr rfl
          fun j _ => Finset.sum_congr rfl fun k _ => by ring
    _ = ∑ t, (∑ j, w j * c t j) * (∑ k, w k * c t k) :=
        Finset.sum_congr rfl fun t _ => (Finset.sum_mul_sum _ _ _ _).symm
    _ = ∑ t, (∑ j, w j * c t j) ^ 2 :=
        Finset.sum_congr rfl fun t _ => (sq _).symm

theorem covariance_psd {n m : ℕ} (pt : PriceTable n m) (w : Fin n → ℚ) :
    0 ≤ portfolioVariance w (covariance pt) := by
  unfold portfolioVariance covariance covDaily
  set d : ℚ := (m : ℚ) - 1 with hd
  set c : Fin m → Fin n → ℚ :=
    fun t j => dailyReturns pt t j - meanDaily pt j with hc
  have h1 : ∀ j, w j * (∑ k, ((∑ t, c t j * c t k) / d * 252) * w k) =
      (w j * ∑ k, (∑ t, c t j * c t k) * w k) * (252 / d) := by
    intro j
    have h2 : ∑ k, ((∑ t, c t j * c t k) / d * 252) * w k =
        (∑ k, (∑ t, c t j * c t k) * w k) * (252 / d) := by
      rw [Finset.sum_mul]
      exact Finset.sum_congr rfl fun k _ => by ring
    rw [h2]
    ring
  rw [Finset.sum_congr rfl fun j _ => h1 j, ← Finset.sum_mul, quadForm_factor]
  rcases Nat.eq_zero_or_pos m with hm0 | hm1
  · subst hm0
    simp
  · have hdnn : 0 ≤ d := by
      rw [hd]
      have : (1 : ℚ) ≤ (m : ℚ) := by exact_mod_cast hm1
      linarith
    exact mul_nonneg (Finset.sum_nonneg fun t _ => sq_nonneg _)
      (div_nonneg (by norm_num) hdnn)

theorem frontierAttempt_risk {n m : ℕ} (pt : PriceTable n m) (rf : ℚ)
    (o : SolverOutcome n) (p : FrontierPoint)
    (hp : frontierAttempt pt rf o = some p) :
    ∃ q, 0 ≤ q ∧ p.risk = NpSqrt.sqrtOf q := by
  cases o with
  | error c => simp [frontierAttempt] at hp
  | ok r =>
      by_cases hs : r.success
      · have hv := covariance_psd pt r.x
        rw [frontierAttempt, if_pos hs] at hp
        refine ⟨portfolioVariance r.x (covariance pt), hv, ?_⟩
        rw [← Option.some.injEq _ _ |>.mp hp]
        simp [portfolio_performance, npSqrt, not_lt.mpr hv]
      · rw [frontierAttempt, if_neg hs] at hp
        exact absurd hp (by simp)

theorem mem_insertPoint {p x : FrontierPoint} {l : List FrontierPoint}
    (hx : x ∈ insertPoint p l) : x = p ∨ x ∈ l := by
  induction l with
  | nil => simpa [insertPoint] using hx
  | cons q l ih =>
      by_cases h : NpSqrt.ltb q.risk p.risk
      · rw [insertPoint, if_pos h] at hx
        rcases List.mem_cons.mp hx with rfl | hx'
        · exact Or.inr (by simp)
        · rcases ih hx' with rfl | hx''
          · exact Or.inl rfl
          · exact Or.inr (by simp [hx''])
      · rw [insertPoint, if_neg h] at hx
        rcases List.mem_cons.mp hx with rfl | hx'
        · exact Or.inl rfl
        · exact Or.inr hx'

theorem mem_sortByRisk {x : FrontierPoint} {l : List FrontierPoint}
    (hx : x ∈ sortByRisk l) : x ∈ l := by
  induction l with
  | nil => simpa [sortByRisk] using hx
  | cons p l ih =>
      rw [sortByRisk] at hx
      rcases mem_insertPoint hx with rfl | hx'
      · simp
      · simp [ih hx']

theorem head_insertPoint (p : FrontierPoint) (l : List FrontierPoint) :
    (insertPoint p l).head? = some p ∨ (insertPoint p l).head? = l.head? := by
  cases l with
  | nil => exact Or.inl rfl
  | cons q l =>
      by_cases h : NpSqrt.ltb q.risk p.risk
      · exact Or.inr (by rw [insertPoint, if_pos h]; rfl)
      · exact Or.inl (by rw [insertPoint, if_neg h]; rfl)

theorem chain'_insertPoint (p : FrontierPoint) (l : List FrontierPoint)
    (hp : ∃ q, 0 ≤ q ∧ p.risk = NpSqrt.sqrtOf q)
    (hl : ∀ x ∈ l, ∃ q, 0 ≤ q ∧ x.risk = NpSqrt.sqrtOf q)
    (hc : List.Chain' (fun a b => NpSqrt.le a.risk b.risk) l) :
    List.Chain' (fun a b => NpSqrt.le a.risk b.risk) (insertPoint p l) := by
  induction l with
  | nil => exact List.chain'_singleton p
  | cons q l ih =>
      obtain ⟨b, _, hbr⟩ := hp
      obtain ⟨a, _, har⟩ := hl q (by simp)
      by_cases h : NpSqrt.ltb q.risk p.risk
      · rw [insertPoint, if_pos h]
        rw [List.chain'_cons']
        constructor
        · intro y hy
          rcases head_insertPoint p l with hh | hh
          · rw [hh] at hy
            have hyp : y = p := by simpa [eq_comm] using hy
            subst hyp
            have hab : a < b := by simpa [NpSqrt.ltb, har, hbr] using h
            simp [NpSqrt.le, NpSqrt.leb, har, hbr, le_of_lt hab]
          · rw [hh] at hy
            exact (List.chain'_cons'.mp hc).1 y hy
        · exact ih (fun x hx => hl x (by simp [hx]))
            (List.chain'_cons'.mp hc).2
      · rw [insertPoint, if_neg h]
        rw [List.chain'_cons]
        refine ⟨?_, hc⟩
        have hna : ¬ a < b := by
          intro hab
          exact h (by simp [NpSqrt.ltb, har, hbr, hab])
        simp only [NpSqrt.le, NpSqrt.leb, har, hbr, decide_eq_true_eq]
        exact le_of_not_lt hna

theorem chain'_sortByRisk (l : List FrontierPoint)
    (hl : ∀ x ∈ l, ∃ q, 0 ≤ q ∧ x.risk = NpSqrt.sqrtOf q) :
    List.Chain' (fun a b => NpSqrt.le a.risk b.risk) (sortByRisk l) := by
  induction l with
  | nil => exact List.chain'_nil
  | cons p l ih =>
      rw [sortByRisk]
      exact chain'_insertPoint p (sortByRisk l) (hl p (by simp))
        (fun x hx => hl x (by simp [mem_sortByRisk hx]))
        (ih fun x hx => hl x (by simp [hx]))

/-- C3: whatever the solver outcomes, a returned frontier is sorted
ascending by risk: consecutive risks compare `<=`. -/
theorem c3_frontier_sorted_by_risk {n m : ℕ} (pt : PriceTable n m) (rf : ℚ)
    (n_points : ℕ) (solver : ℕ → SolverOutcome n) (l : List FrontierPoint)
    (h : generate_efficient_frontier pt rf n_points solver = Except.ok l) :
    riskSorted l := by
  by_cases hn0 : n = 0
  · rw [generate_efficient_frontier, if_pos hn0] at h
    exact absurd h (by simp)
  · rw [generate_efficient_frontier, if_neg hn0] at h
    obtain rfl : sortByRisk ((List.range (targetReturns pt n_points).length).filterMap
        fun i => frontierAttempt pt rf (solver i)) = l := by
      simpa using h
    have hall : ∀ x ∈ (List.range (targetReturns pt n_points).length).filterMap
        (fun i => frontierAttempt pt rf (solver i)),
        ∃ q, 0 ≤ q ∧ x.risk = NpSqrt.sqrtOf q := by
      intro x hx
      obtain ⟨i, _, hfx⟩ := List.mem_filterMap.mp hx
      exact frontierAttempt_risk pt rf (solver i) x hfx
    have hchain := chain'_sortByRisk _ hall
    intro i hi
    exact List.chain'_iff_get.mp hchain i (by omega)

theorem expectedReturns_ptA : expectedReturns ptA = ![252, 126] := by
  funext j
  fin_cases j <;> norm_num [expectedReturns, meanDaily, dailyReturns, ptA]

theorem covariance_ptA : covariance ptA = fun _ _ => 0 := by
  funext j k
  norm_num [covariance, covDaily]

theorem generate_frontier_ptA :
    generate_efficient_frontier ptA 0 2 solverC3 =
      Except.ok [⟨NpSqrt.sqrtOf 0, 252⟩, ⟨NpSqrt.sqrtOf 0, 126⟩] := by
  have hp0 : frontierAttempt ptA 0 (solverC3 0) =
      some ⟨NpSqrt.sqrtOf 0, 252⟩ := by
    norm_num [solverC3, frontierAttempt, portfolio_performance,
      expectedReturns_ptA, covariance_ptA, dotProd, portfolioVariance, npSqrt,
      Fin.sum_univ_two]
  have hp1 : frontierAttempt ptA 0 (solverC3 1) =
      some ⟨NpSqrt.sqrtOf 0, 126⟩ := by
    norm_num [solverC3, frontierAttempt, portfolio_performance,
      expectedReturns_ptA, covariance_ptA, dotProd, portfolioVariance, npSqrt,
      Fin.sum_univ_two]
  rw [generate_efficient_frontier, if_neg (by norm_num), targetReturns,
    length_linspace]
  have hrange : List.range 2 = [0, 1] := rfl
  rw [hrange]
  rw [show ([0, 1] : List ℕ).filterMap
        (fun i => frontierAttempt ptA 0 (solverC3 i)) =
      [⟨NpSqrt.sqrtOf 0, 252⟩, ⟨NpSqrt.sqrtOf 0, 126⟩] from by
    simp only [List.filterMap_cons, List.filterMap_nil, hp0, hp1]]
  norm_num [sortByRisk, insertPoint, NpSqrt.ltb]

/-- Witness for C3: a concrete two-target sweep whose both solves converge;
the returned points (equal risk, order preserved) satisfy the contract. -/
theorem c3_frontier_sorted_by_risk_witness :
    riskSorted [⟨NpSqrt.sqrtOf 0, 252⟩, ⟨NpSqrt.sqrtOf 0, 126⟩] :=
  c3_frontier_sorted_by_risk ptA 0 2 solverC3
    [⟨NpSqrt.sqrtOf 0, 252⟩, ⟨NpSqrt.sqrtOf 0, 126⟩] generate_frontier_ptA

end Optimizer
